import Mathlib

/-!
# Verification of the redback likelihood layer (`redback/likelihoods.py`)

Shallow embedding of the likelihood evaluators in `src/redback/likelihoods.py`.

Two numeric models are used:

* an idealized exact model over an arbitrary field `F` equipped with a
  `NumOps F` record interpreting the transcendental primitives (`np.log`,
  `np.pi`, `scipy.special.gammaln`, `np.sqrt`); the Python code is faithfully
  mirrored on executions in which every intermediate value is finite, where
  IEEE arithmetic agrees with exact arithmetic up to rounding. Instantiating
  `F := ℝ` with the genuine `Real.log`/`Real.pi` gives the closed-form
  statements of the spec; instantiating `F := ℚ` gives decidable evaluation
  for witnesses. The formula claims are dataflow facts and hold uniformly in
  the interpretation.
* an IEEE-structure model (`PFloat`), rationals extended with `+inf`, `-inf`
  and `nan`, with numpy's propagation rules for these special values and with
  `log` values at positive finite arguments supplied by an oracle — used for
  the claims about degenerate draws and `np.nan_to_num` sanitization, whose
  truth depends only on the special-value structure, never on the concrete
  transcendental values.

Python `dict`s are association lists (`PyDict`), Python `None` is `Option.none`,
a raised Python exception is the `Except.error` channel, and the mutable
`self._noise_log_likelihood` cache is explicit state passing.
-/

namespace Redback

/-- A Python `dict` with `String` keys: an association list in which each key
occurs at most once (insertion order kept, as in CPython). -/
abbrev PyDict (α : Type) : Type := List (String × α)

namespace PyDict

/-- `d[k]` lookup returning `none` when the key is absent (`KeyError` site). -/
def get? {α : Type} (d : PyDict α) (k : String) : Option α :=
  (d.find? (fun p => p.1 = k)).map (·.2)

/-- Python `d.get(k, default)`. -/
def getD {α : Type} (d : PyDict α) (k : String) (dflt : α) : α :=
  (d.get? k).getD dflt

/-- Python `d[k] = v`: replace in place when the key exists, else append. -/
def setKey {α : Type} (d : PyDict α) (k : String) (v : α) : PyDict α :=
  if (d.find? (fun p => p.1 = k)).isSome then
    d.map (fun p => if p.1 = k then (k, v) else p)
  else d ++ [(k, v)]

/-- The keys of the dict, in order. -/
def keys {α : Type} (d : PyDict α) : List String := d.map (·.1)

end PyDict

/-- Interpretation of the transcendental primitives used by the likelihood
code: `np.log`, `np.pi`, `scipy.special.gammaln` and `np.sqrt`. The code's
formulas are pure dataflow over these. -/
structure NumOps (F : Type) where
  log : F → F
  pi : F
  lgamma : F → F
  sqrt : F → F

/-- The genuine real-number interpretation (`Real.Gamma.log` composed, and
`gammaln(n) = log Γ(n)`; on the integer arguments `n + 1` used by the code,
`gammaln (n+1) = log n!`). -/
noncomputable def realOps : NumOps ℝ :=
  ⟨Real.log, Real.pi, fun z => Real.log (Real.Gamma z), Real.sqrt⟩

variable {F : Type} [Field F]

/-- A Python parameter value: `none` is Python `None` (a parameter that has
not been given a value yet), `some v` a float value. -/
abbrev PyVal (F : Type) : Type := Option F

/-- A physical model function in the idealized model: it receives the
independent-variable array and the two keyword dicts `self.parameters` and
`self.kwargs` that the likelihood code splats into the call. -/
abbrev Model (F : Type) : Type := List F → PyDict (PyVal F) → PyDict F → List F

/-- `GaussianLikelihood._log_l(res, sigma)`
(`np.sum(- (res / sigma) ** 2 / 2 - np.log(2 * np.pi * sigma ** 2) / 2)`):
elementwise Gaussian log-density terms, summed. -/
def log_l (M : NumOps F) (res : List F) (sigma : F) : F :=
  (res.map (fun r => -(r / sigma) ^ 2 / 2 - M.log (2 * M.pi * sigma ^ 2) / 2)).sum

/-- State of a `GaussianLikelihood` instance (`likelihoods.py` lines 10–85).
`sigmaFixed` is `self._sigma`, `noiseCache` is `self._noise_log_likelihood`
(initialized to `None` in `__init__`), `parameters` is the bilby parameter
dict that the sampler mutates between calls. -/
structure GaussianLikelihood (F : Type) where
  x : List F
  y : List F
  sigmaFixed : PyVal F
  function : Model F
  kwargs : PyDict F
  parameters : PyDict (PyVal F)
  noiseCache : Option F

namespace GaussianLikelihood

/-- The `sigma` property: `self.parameters.get('sigma', self._sigma)` —
a `'sigma'` entry of the live parameter dict, when present, is returned in
preference to the construction-time `self._sigma`. -/
def sigma (ev : GaussianLikelihood F) : PyVal F :=
  match ev.parameters.get? "sigma" with
  | some v => v
  | none => ev.sigmaFixed

/-- The `residual` property: `self.y - self.function(self.x, **self.parameters,
**self.kwargs)` (elementwise over equal-length arrays). -/
def residual (ev : GaussianLikelihood F) : List F :=
  List.zipWith (· - ·) ev.y (ev.function ev.x ev.parameters ev.kwargs)

/-- `log_likelihood(self)`: `self._log_l(res=self.residual, sigma=self.sigma)`.
`none` models the `TypeError` Python raises when the resolved sigma is `None`. -/
def log_likelihood (M : NumOps F) (ev : GaussianLikelihood F) : Option F :=
  (ev.sigma).map (fun σ => log_l M ev.residual σ)

/-- `noise_log_likelihood(self)`: compute `self._log_l(res=self.y,
sigma=self.sigma)` and store it only when `self._noise_log_likelihood is None`,
then return the stored value. Returns the value together with the successor
state; `(none, ev)` models the `TypeError` raised when sigma resolves to
`None` (nothing is stored in that case). -/
def noise_log_likelihood (M : NumOps F) (ev : GaussianLikelihood F) :
    Option F × GaussianLikelihood F :=
  match ev.noiseCache with
  | some v => (some v, ev)
  | none =>
    match ev.sigma with
    | some σ =>
      let v := log_l M ev.y σ
      (some v, { ev with noiseCache := some v })
    | none => (none, ev)

end GaussianLikelihood

/-- State of a `GaussianLikelihoodUniformXErrors` instance (`likelihoods.py`
lines 88–124): the parent `GaussianLikelihood` state plus
`self.xerr = bin_size * np.ones(self.N)`. -/
structure GaussianLikelihoodUniformXErrors (F : Type) where
  base : GaussianLikelihood F
  xerr : List F

namespace GaussianLikelihoodUniformXErrors

/-- The `__init__` of `GaussianLikelihoodUniformXErrors`: parent construction
followed by `self.xerr = bin_size * np.ones(self.N)` with `self.N = len(x)`. -/
def mk' (x y : List F) (sigma : PyVal F) (bin_size : F) (function : Model F)
    (kwargs : PyDict F) (parameters : PyDict (PyVal F)) :
    GaussianLikelihoodUniformXErrors F :=
  { base := { x := x, y := y, sigmaFixed := sigma, function := function,
              kwargs := kwargs, parameters := parameters, noiseCache := none },
    xerr := List.replicate x.length bin_size }

/-- `log_likelihood_x(self)`: `-np.nan_to_num(np.sum(np.log(self.xerr)))`.
In the idealized finite model `np.nan_to_num` is the identity (this is
faithful for positive finite bin sizes). -/
def log_likelihood_x (M : NumOps F) (ev : GaussianLikelihoodUniformXErrors F) : F :=
  -(ev.xerr.map M.log).sum

/-- `log_likelihood_y(self)`: `self._log_l(res=self.residual, sigma=self.sigma)`. -/
def log_likelihood_y (M : NumOps F) (ev : GaussianLikelihoodUniformXErrors F) :
    Option F :=
  (ev.base.sigma).map (fun σ => log_l M ev.base.residual σ)

/-- `log_likelihood(self)`: `self.log_likelihood_x() + self.log_likelihood_y()`. -/
def log_likelihood (M : NumOps F) (ev : GaussianLikelihoodUniformXErrors F) :
    Option F :=
  (ev.log_likelihood_y M).map (fun ly => ev.log_likelihood_x M + ly)

end GaussianLikelihoodUniformXErrors

/-- State of a `GRBGaussianLikelihood` instance (`likelihoods.py` lines
202–248). Unlike `GaussianLikelihood`, `self._noise_log_likelihood` is
initialized to `0` (not `None`) and `noise_log_likelihood` has no cache
guard. `sigma0` is the plain attribute `self.sigma` set in `__init__`. -/
structure GRBGaussianLikelihood (F : Type) where
  x : List F
  y : List F
  sigma0 : PyVal F
  function : Model F
  kwargs : PyDict F
  parameters : PyDict (PyVal F)
  noiseStored : F

namespace GRBGaussianLikelihood

/-- The local `sigma = self.parameters.get('sigma', self.sigma)` of both
methods. -/
def sigmaNow (ev : GRBGaussianLikelihood F) : PyVal F :=
  match ev.parameters.get? "sigma" with
  | some v => v
  | none => ev.sigma0

/-- `noise_log_likelihood(self)` of `GRBGaussianLikelihood`: recomputes
`np.sum(- (res / sigma) ** 2 / 2 - np.log(2 * np.pi * sigma ** 2) / 2)` with
`res = self.y - 0.` on EVERY call (no `is None` guard), stores it, returns it. -/
def noise_log_likelihood (M : NumOps F) (ev : GRBGaussianLikelihood F) :
    Option F × GRBGaussianLikelihood F :=
  match ev.sigmaNow with
  | some σ =>
    let v := log_l M (ev.y.map (fun yi => yi - 0)) σ
    (some v, { ev with noiseStored := v })
  | none => (none, ev)

end GRBGaussianLikelihood

/-- `GaussianLikelihood` with the model's exception channel explicit: the
physical model may raise (`Except.error`), and `likelihoods.py` contains no
`try`/`except`, so the monadic bind in `residual`/`log_likelihood` is exactly
Python's propagation of the exception out of the call. -/
structure GaussianLikelihoodE (F : Type) where
  x : List F
  y : List F
  sigmaFixed : PyVal F
  function : List F → PyDict (PyVal F) → PyDict F → Except String (List F)
  kwargs : PyDict F
  parameters : PyDict (PyVal F)

namespace GaussianLikelihoodE

/-- The `sigma` property, as in `GaussianLikelihood.sigma`. -/
def sigma (ev : GaussianLikelihoodE F) : PyVal F :=
  match ev.parameters.get? "sigma" with
  | some v => v
  | none => ev.sigmaFixed

/-- The `residual` property with the exception channel explicit: the model
call `self.function(self.x, **self.parameters, **self.kwargs)` is not guarded,
so an exception it raises leaves `residual` immediately. -/
def residual (ev : GaussianLikelihoodE F) : Except String (List F) := do
  let fx ← ev.function ev.x ev.parameters ev.kwargs
  pure (List.zipWith (· - ·) ev.y fx)

/-- `log_likelihood(self)` with the exception channel explicit: no handler
surrounds `self._log_l(res=self.residual, sigma=self.sigma)`, so a model
exception propagates; a `None` sigma raises `TypeError`. -/
def log_likelihood (M : NumOps F) (ev : GaussianLikelihoodE F) : Except String F := do
  let r ← ev.residual
  match ev.sigma with
  | some σ => pure (log_l M r σ)
  | none => throw "TypeError"

end GaussianLikelihoodE

/-- A Python callable as seen by the keyword-passing call sites: its declared
keyword-accepting formal names beyond the first positional argument
(`accepts`), whether it declares `**kwargs` (`hasVarKw`), and its value on
the arrays and dicts it receives. -/
structure PyModel (F : Type) where
  accepts : List String
  hasVarKw : Bool
  impl : List F → PyDict (PyVal F) → PyDict F → List F

/-- Python call semantics for `function(x, **params, **kwargs)`: every splatted
key must be a declared formal name unless the callee has `**kwargs`, otherwise
the call raises `TypeError: got an unexpected keyword argument`. -/
def callModel (f : PyModel F) (x : List F) (params : PyDict (PyVal F))
    (kwargs : PyDict F) : Except String (List F) :=
  if (params.keys ++ kwargs.keys).all (fun k => f.hasVarKw || f.accepts.contains k) then
    Except.ok (f.impl x params kwargs)
  else
    Except.error "TypeError: got an unexpected keyword argument"

/-- `scipy.special.gammaln(c + 1)` applied elementwise and the Poisson kernel
`_poisson_log_likelihood(self, rate)`:
`np.sum(-rate + self.counts * np.log(rate) - gammaln(self.counts + 1))`,
with the integer counts array broadcast against `rate`. -/
def poisson_log_l (M : NumOps F) (counts : List ℕ) (rate : List F) : F :=
  (List.zipWith
    (fun (c : ℕ) (r : F) => -r + (c : F) * M.log r - M.lgamma ((c : F) + 1))
    counts rate).sum

/-- State of a `PoissonLikelihood` instance (`likelihoods.py` lines 251–306).
The `dt` property stores into / reads from `self.kwargs['dt']`. -/
structure PoissonLikelihood (F : Type) where
  time : List F
  counts : List ℕ
  function : PyModel F
  integrated_rate_function : Bool
  kwargs : PyDict F
  parameters : PyDict (PyVal F)

namespace PoissonLikelihood

/-- The `dt.setter` body: when the supplied `dt` is `None`, derive
`dt = self.time[1] - self.time[0]` (an `IndexError`, modelled as `none`, when
`time` has fewer than two entries); then `self.kwargs['dt'] = dt`. -/
def deriveDt (time : List F) (dtArg : Option F) : Option F :=
  match dtArg with
  | some d => some d
  | none =>
    match time with
    | t0 :: t1 :: _ => some (t1 - t0)
    | _ => none

/-- The `__init__` of `PoissonLikelihood`: store the data, default `kwargs` to
`dict()`, run the `dt` setter (which writes `self.kwargs['dt']`), and set
`self.parameters` from the introspected parameter names (all mapped to `None`).
Returns `none` exactly when the `dt` derivation raises `IndexError`. -/
def mk' (time : List F) (counts : List ℕ) (function : PyModel F)
    (integrated_rate_function : Bool) (dtArg : Option F)
    (kwargs0 : Option (PyDict F)) : Option (PoissonLikelihood F) :=
  (deriveDt time dtArg).map (fun dt =>
    { time := time, counts := counts, function := function,
      integrated_rate_function := integrated_rate_function,
      kwargs := (kwargs0.getD []).setKey "dt" dt,
      parameters := function.accepts.map (fun k => (k, none)) })

/-- The `dt` property getter: `self.kwargs['dt']` (`none` is `KeyError`). -/
def dt (ev : PoissonLikelihood F) : Option F :=
  ev.kwargs.get? "dt"

/-- `log_likelihood(self)`:
`rate = self.function(self.time, **self.parameters, **self.kwargs) +
self.parameters['background_rate']`; `rate *= self.dt` when the model is not
an integrated rate; then the Poisson kernel. The error channel carries the
`TypeError` of the call, the `KeyError`/`TypeError` of a missing or `None`
`background_rate`, and a missing `dt` key. -/
def log_likelihood (M : NumOps F) (ev : PoissonLikelihood F) : Except String F := do
  let fx ← callModel ev.function ev.time ev.parameters ev.kwargs
  match ev.parameters.get? "background_rate" with
  | some (some bg) =>
    let rate := fx.map (fun v => v + bg)
    match ev.integrated_rate_function, ev.dt with
    | true, _ => pure (poisson_log_l M ev.counts rate)
    | false, some d => pure (poisson_log_l M ev.counts (rate.map (fun v => v * d)))
    | false, none => throw "KeyError: dt"
  | some none => throw "TypeError: background_rate is None"
  | none => throw "KeyError: background_rate"

/-- `noise_log_likelihood(self)`:
`background_rate = self.parameters['background_rate'] * self.dt`, then the
Poisson kernel at that scalar rate (broadcast over the counts array). It is
recomputed on every call (no cache guard; `self._noise_log_likelihood` is
never even read). -/
def noise_log_likelihood (M : NumOps F) (ev : PoissonLikelihood F) :
    Except String F := do
  match ev.parameters.get? "background_rate", ev.dt with
  | some (some bg), some d =>
    pure (poisson_log_l M ev.counts (ev.counts.map (fun _ => bg * d)))
  | some none, _ => throw "TypeError: background_rate is None"
  | none, _ => throw "KeyError: background_rate"
  | _, none => throw "KeyError: dt"

end PoissonLikelihood

/-! ## The IEEE special-value model

`PFloat` is the float model that keeps numpy's `inf`/`nan` structure: finite
values are exact rationals, and the arithmetic follows the IEEE-754/numpy
propagation rules for the special values (`0 * inf = nan`, `inf - inf = nan`,
`x / 0` signed infinity, `log 0 = -inf`, `log` of a negative is `nan`, any
operation on `nan` is `nan`). Values of `np.log` and `np.sqrt` at valid
finite arguments are supplied by an oracle `ℚ → ℚ`; every statement proved in
this model holds for all oracles, so nothing depends on the oracle's values. -/

/-- A numpy float64 value, with exact rationals standing for the finite
values: `val q`, `+inf`, `-inf` or `nan`. -/
inductive PFloat where
  | val : ℚ → PFloat
  | pinf : PFloat
  | ninf : PFloat
  | nan : PFloat
deriving DecidableEq, Repr

namespace PFloat

/-- IEEE negation. -/
def pneg : PFloat → PFloat
  | val q => val (-q)
  | pinf => ninf
  | ninf => pinf
  | nan => nan

/-- IEEE addition: infinities absorb finite values, `inf + -inf = nan`,
`nan` absorbs everything. -/
def padd : PFloat → PFloat → PFloat
  | val a, val b => val (a + b)
  | val _, pinf => pinf
  | val _, ninf => ninf
  | pinf, val _ => pinf
  | ninf, val _ => ninf
  | pinf, pinf => pinf
  | ninf, ninf => ninf
  | pinf, ninf => nan
  | ninf, pinf => nan
  | nan, _ => nan
  | _, nan => nan

/-- IEEE subtraction. -/
def psub (a b : PFloat) : PFloat := padd a (pneg b)

/-- IEEE multiplication: `0 * ±inf = nan`, signs multiply, `nan` absorbs. -/
def pmul : PFloat → PFloat → PFloat
  | val a, val b => val (a * b)
  | val a, pinf => if a > 0 then pinf else if a < 0 then ninf else nan
  | val a, ninf => if a > 0 then ninf else if a < 0 then pinf else nan
  | pinf, val b => if b > 0 then pinf else if b < 0 then ninf else nan
  | ninf, val b => if b > 0 then ninf else if b < 0 then pinf else nan
  | pinf, pinf => pinf
  | ninf, ninf => pinf
  | pinf, ninf => ninf
  | ninf, pinf => ninf
  | nan, _ => nan
  | _, nan => nan

/-- IEEE division: `x / 0` is a signed infinity (`0 / 0 = nan`), a finite
value divided by an infinity is `0`, `inf / inf = nan`. -/
def pdiv : PFloat → PFloat → PFloat
  | val a, val b =>
    if b ≠ 0 then val (a / b)
    else if a > 0 then pinf else if a < 0 then ninf else nan
  | val _, pinf => val 0
  | val _, ninf => val 0
  | pinf, val b => if b ≥ 0 then pinf else ninf
  | ninf, val b => if b ≥ 0 then ninf else pinf
  | pinf, pinf => nan
  | pinf, ninf => nan
  | ninf, pinf => nan
  | ninf, ninf => nan
  | nan, _ => nan
  | _, nan => nan

/-- `x ** 2` (`x` squared). -/
def ppow2 (a : PFloat) : PFloat := pmul a a

/-- IEEE `>=` as numpy evaluates it elementwise: any comparison with `nan`
is `False`. -/
def pge : PFloat → PFloat → Bool
  | val a, val b => a ≥ b
  | val _, pinf => false
  | val _, ninf => true
  | pinf, val _ => true
  | pinf, pinf => true
  | pinf, ninf => true
  | ninf, ninf => true
  | ninf, val _ => false
  | ninf, pinf => false
  | nan, _ => false
  | _, nan => false

/-- `np.log` with the oracle `lg` giving its (finite) value at positive
finite arguments: `log 0 = -inf` (numpy divide-warning), `log` of a negative
is `nan` (numpy invalid-warning). -/
def plog (lg : ℚ → ℚ) : PFloat → PFloat
  | val q => if q > 0 then val (lg q) else if q = 0 then ninf else nan
  | pinf => pinf
  | ninf => nan
  | nan => nan

/-- `np.sqrt` with the oracle `sq` giving its value at nonnegative finite
arguments; `sqrt` of a negative is `nan`. -/
def psqrt (sq : ℚ → ℚ) : PFloat → PFloat
  | val q => if q ≥ 0 then val (sq q) else nan
  | pinf => pinf
  | ninf => nan
  | nan => nan

/-- `np.sum`: left fold of IEEE addition starting from `0.0`. -/
def pSum (xs : List PFloat) : PFloat := xs.foldl padd (val 0)

/-- `np.finfo(np.float64).max` `= (2 - 2⁻⁵²)·2¹⁰²³`, exactly. -/
def maxFloat : ℚ := 2 ^ 1024 - 2 ^ 971

/-- `np.finfo(np.float64).min`, exactly. -/
def minFloat : ℚ := -(2 ^ 1024 - 2 ^ 971)

/-- `np.nan_to_num` with default arguments: `nan ↦ 0.0`,
`inf ↦ np.finfo(float64).max`, `-inf ↦ np.finfo(float64).min`, finite values
unchanged. -/
def nanToNum : PFloat → PFloat
  | val q => val q
  | pinf => val maxFloat
  | ninf => val minFloat
  | nan => val 0

/-- Whether the value is finite (a `val`). -/
def isFinite : PFloat → Bool
  | val _ => true
  | _ => false

end PFloat

open PFloat

/-- `GaussianLikelihood._log_l(res, sigma)` in the IEEE special-value model:
`np.sum(- (res / sigma) ** 2 / 2 - np.log(2 * np.pi * sigma ** 2) / 2)`,
with `lg` the `np.log` oracle and `piq` the float value of `np.pi`. -/
def log_lF (lg : ℚ → ℚ) (piq : ℚ) (res : List PFloat) (sigma : PFloat) : PFloat :=
  pSum (res.map (fun r =>
    psub (pdiv (pneg (ppow2 (pdiv r sigma))) (val 2))
         (pdiv (plog lg (pmul (pmul (val 2) (val piq)) (ppow2 sigma))) (val 2))))

/-- `PoissonLikelihood._poisson_log_likelihood(self, rate)` in the IEEE
special-value model:
`np.sum(-rate + self.counts * np.log(rate) - gammaln(self.counts + 1))`,
with `lg` the `np.log` oracle and `gl` the `gammaln` oracle (the counts are
nonnegative integers, so `gammaln(c + 1)` is always finite). -/
def poisson_log_lF (lg gl : ℚ → ℚ) (counts : List ℚ) (rate : List PFloat) : PFloat :=
  pSum (List.zipWith
    (fun (c : ℚ) (r : PFloat) =>
      psub (padd (pneg r) (pmul (val c) (plog lg r))) (val (gl (c + 1))))
    counts rate)

/-- State of a `GaussianLikelihoodQuadratureNoiseNonDetections` instance
(`likelihoods.py` lines 127–199) in the IEEE special-value model. The parent
`GaussianLikelihoodQuadratureNoise.__init__` passes `sigma=None`, so `sigma`
always resolves from the live parameter dict. -/
structure NonDetectionsF where
  x : List PFloat
  y : List PFloat
  sigma_i : PFloat
  function : List PFloat → PyDict (Option PFloat) → PyDict PFloat → List PFloat
  kwargs : PyDict PFloat
  upperlimit_kwargs : PyDict PFloat
  parameters : PyDict (Option PFloat)

namespace NonDetectionsF

/-- The resolved `sigma` parameter (`self.parameters.get('sigma', None)`;
`none` models the `TypeError` of arithmetic on `None`). -/
def sigma (ev : NonDetectionsF) : Option PFloat :=
  match ev.parameters.get? "sigma" with
  | some v => v
  | none => none

/-- The `full_sigma` property: `np.sqrt(self.sigma_i ** 2. + self.sigma ** 2.)`. -/
def full_sigma (sq : ℚ → ℚ) (ev : NonDetectionsF) : Option PFloat :=
  (ev.sigma).map (fun σ => psqrt sq (padd (ppow2 ev.sigma_i) (ppow2 σ)))

/-- The `upperlimit_flux` property: `self.upperlimit_kwargs['flux']`
(`none` is the `KeyError`/`TypeError` on a missing dict or key). -/
def upperlimit_flux (ev : NonDetectionsF) : Option PFloat :=
  ev.upperlimit_kwargs.get? "flux"

/-- `log_likelihood_y(self)`: `self._log_l(res=self.residual,
sigma=self.full_sigma)` with `residual = y - function(x, **parameters,
**kwargs)`. -/
def log_likelihood_y (lg sq : ℚ → ℚ) (piq : ℚ) (ev : NonDetectionsF) :
    Option PFloat :=
  (ev.full_sigma sq).map (fun fσ =>
    log_lF lg piq
      (List.zipWith psub ev.y (ev.function ev.x ev.parameters ev.kwargs)) fσ)

/-- `log_likelihood_upper_limit(self)` (`likelihoods.py` lines 192–196):

```python
flux = self.function(self.x, **self.parameters, **self.upperlimit_kwargs)
log_l = -np.ones(len(flux)) * np.log(self.upperlimit_flux)
log_l[flux >= self.upperlimit_flux] = np.nan_to_num(-np.inf)
return np.nan_to_num(np.sum(log_l))
```

Note `np.nan_to_num(-np.inf)` is the FINITE value `np.finfo(float64).min`,
and the final sum is `np.nan_to_num`-sanitized again. -/
def log_likelihood_upper_limit (lg : ℚ → ℚ) (ev : NonDetectionsF) :
    Option PFloat :=
  (ev.upperlimit_flux).map (fun thr =>
    let flux := ev.function ev.x ev.parameters ev.upperlimit_kwargs
    let logl := flux.map (fun _ => pmul (pneg (val 1)) (plog lg thr))
    let logl := List.zipWith
      (fun f l => if pge f thr then nanToNum ninf else l) flux logl
    nanToNum (pSum logl))

/-- `log_likelihood(self)`:
`self.log_likelihood_y() + self.log_likelihood_upper_limit()`. -/
def log_likelihood (lg sq : ℚ → ℚ) (piq : ℚ) (ev : NonDetectionsF) :
    Option PFloat :=
  match ev.log_likelihood_y lg sq piq, ev.log_likelihood_upper_limit lg with
  | some ly, some lu => some (padd ly lu)
  | _, _ => none

end NonDetectionsF

/-- The all-rational interpretation used to evaluate the embedding on concrete
inputs: the transcendental primitives are interpreted by placeholder rational
oracles (the dataflow theorems hold uniformly in the interpretation). -/
def ratOps : NumOps ℚ :=
  ⟨fun q => q, 3, fun q => q, fun q => q⟩

/-- A summed `zipWith` over equal-length lists is the indexed sum over the
`N` positions. -/
theorem zipWith_sum_range {α β G : Type} [AddCommMonoid G] (f : α → β → G)
    (da : α) (db : β) :
    ∀ (a : List α) (b : List β), b.length = a.length →
      (List.zipWith f a b).sum =
        ∑ i ∈ Finset.range a.length, f (a.getD i da) (b.getD i db)
  | [], [], _ => by simp
  | [], _ :: _, h => by simp at h
  | _ :: _, [], h => by simp at h
  | x :: xs, z :: zs, h => by
      simp only [List.zipWith_cons_cons, List.sum_cons, List.length_cons]
      rw [Finset.sum_range_succ']
      simp only [List.getD_cons_succ, List.getD_cons_zero]
      rw [zipWith_sum_range f da db xs zs (by simpa using h), add_comm]

/-- A summed `map` is the indexed sum over the `N` positions. -/
theorem map_sum_range {α G : Type} [AddCommMonoid G] (g : α → G) (da : α) :
    ∀ (a : List α), (a.map g).sum = ∑ i ∈ Finset.range a.length, g (a.getD i da)
  | [] => by simp
  | x :: xs => by
      simp only [List.map_cons, List.sum_cons, List.length_cons]
      rw [Finset.sum_range_succ']
      simp only [List.getD_cons_succ, List.getD_cons_zero]
      rw [map_sum_range g da xs, add_comm]

/-- C1: for an observation set with `N` points and an effective sigma `σ`,
`GaussianLikelihood.log_likelihood()` equals the closed-form Gaussian sum
`Σ_{i<N} [ -(r_i/σ)²/2 − ln(2πσ²)/2 ]` with
`r_i = y_i − model(x, **parameters, **kwargs)_i`. -/
theorem C1_gaussian_log_likelihood_closed_form {F : Type} [Field F]
    (M : NumOps F) (ev : GaussianLikelihood F) (σ : F) (N : ℕ)
    (hσ : ev.sigma = some σ)
    (hy : ev.y.length = N)
    (hf : (ev.function ev.x ev.parameters ev.kwargs).length = N) :
    ev.log_likelihood M =
      some (∑ i ∈ Finset.range N,
        (-((ev.y.getD i 0 - (ev.function ev.x ev.parameters ev.kwargs).getD i 0) / σ) ^ 2 / 2
          - M.log (2 * M.pi * σ ^ 2) / 2)) := by
  unfold GaussianLikelihood.log_likelihood
  rw [hσ]
  simp only [Option.map_some']
  congr 1
  unfold log_l GaussianLikelihood.residual
  rw [List.map_zipWith,
    zipWith_sum_range _ 0 0 ev.y (ev.function ev.x ev.parameters ev.kwargs)
      (by rw [hy, hf]), hy]

/-- Witness for C1 at a concrete two-point evaluator over `ℚ`. -/
theorem C1_witness :
    let ev : GaussianLikelihood ℚ :=
      { x := [0, 1], y := [3, 5], sigmaFixed := some 2,
        function := fun _ _ _ => [1, 1], kwargs := [], parameters := [],
        noiseCache := none }
    ev.sigma = some 2 ∧ ev.y.length = 2 ∧
      (ev.function ev.x ev.parameters ev.kwargs).length = 2 ∧
      ev.log_likelihood ratOps =
        some (∑ i ∈ Finset.range 2,
          (-((ev.y.getD i 0 - (ev.function ev.x ev.parameters ev.kwargs).getD i 0) / 2) ^ 2 / 2
            - ratOps.log (2 * ratOps.pi * 2 ^ 2) / 2)) := by
  refine ⟨by decide, by decide, by decide, ?_⟩
  exact C1_gaussian_log_likelihood_closed_form ratOps _ 2 2 (by decide) (by decide) (by decide)

/-- Claim C6 counterexample: a `GaussianLikelihood` constructed with the fixed
sigma `2` whose live parameter dict carries a `'sigma'` entry (as happens
whenever the model's signature has a `sigma` argument, or the sampler writes
one). The `sigma` property resolves to the parameter value `5`, not the
construction-time `2`, and `log_likelihood` uses `5`. -/
theorem C6_counterexample :
    let ev : GaussianLikelihood ℚ :=
      { x := [0], y := [0], sigmaFixed := some 2,
        function := fun _ _ _ => [0], kwargs := [],
        parameters := [("sigma", some 5)], noiseCache := none }
    ev.sigmaFixed = some 2 ∧ ev.sigma = some 5 ∧ ev.sigma ≠ some 2 ∧
      ev.log_likelihood ratOps = some (log_l ratOps ev.residual 5) := by
  refine ⟨rfl, rfl, ?_, rfl⟩
  intro h
  exact absurd (Option.some.inj h) (by norm_num)

/-- Claim C6 as amended: the construction-time fixed sigma is the effective
sigma of `log_likelihood()` exactly when the live parameter dict has no
`'sigma'` key; a `'sigma'` entry of the parameter dict takes precedence over
the fixed value. -/
theorem C6_amended_fixed_sigma {F : Type} [Field F] (M : NumOps F)
    (ev : GaussianLikelihood F) (s : F)
    (hfix : ev.sigmaFixed = some s)
    (hp : ev.parameters.get? "sigma" = none) :
    ev.sigma = some s ∧ ev.log_likelihood M = some (log_l M ev.residual s) := by
  have hs : ev.sigma = some s := by
    unfold GaussianLikelihood.sigma
    rw [hp, hfix]
  refine ⟨hs, ?_⟩
  unfold GaussianLikelihood.log_likelihood
  rw [hs]
  rfl

/-- Witness for the amended C6 at a concrete evaluator over `ℚ`. -/
theorem C6_witness :
    let ev : GaussianLikelihood ℚ :=
      { x := [0], y := [1], sigmaFixed := some 3,
        function := fun _ _ _ => [0], kwargs := [],
        parameters := [("other", some 7)], noiseCache := none }
    ev.sigmaFixed = some 3 ∧ ev.parameters.get? "sigma" = none ∧
      ev.sigma = some 3 ∧ ev.log_likelihood ratOps = some (log_l ratOps ev.residual 3) := by
  refine ⟨by decide, by decide, ?_, ?_⟩
  · exact (C6_amended_fixed_sigma ratOps _ 3 (by decide) (by decide)).1
  · exact (C6_amended_fixed_sigma ratOps _ 3 (by decide) (by decide)).2

/-- Claim C9: for `GaussianLikelihoodUniformXErrors` (whose
`xerr = bin_size * np.ones(N)` is constant by construction),
`log_likelihood_x()` equals `−N·ln(bin_size)`, and `log_likelihood()` is the
x-term plus the Gaussian y-term. The hypothesis `0 < bin_size` is the
finite-value condition under which the idealized model is faithful
(`np.nan_to_num` is the identity on the finite sum). -/
theorem C9_uniform_x_errors {F : Type} [LinearOrderedField F] (M : NumOps F)
    (x y : List F) (sigma : PyVal F) (b : F) (f : Model F)
    (kw : PyDict F) (p : PyDict (PyVal F)) (σ : F)
    (_hb : 0 < b)
    (hσ : (GaussianLikelihoodUniformXErrors.mk' x y sigma b f kw p).base.sigma = some σ) :
    (GaussianLikelihoodUniformXErrors.mk' x y sigma b f kw p).log_likelihood_x M
        = -((x.length : F) * M.log b) ∧
    (GaussianLikelihoodUniformXErrors.mk' x y sigma b f kw p).log_likelihood M
        = some ((GaussianLikelihoodUniformXErrors.mk' x y sigma b f kw p).log_likelihood_x M
            + log_l M (GaussianLikelihoodUniformXErrors.mk' x y sigma b f kw p).base.residual σ) := by
  constructor
  · unfold GaussianLikelihoodUniformXErrors.log_likelihood_x
      GaussianLikelihoodUniformXErrors.mk'
    simp [List.map_replicate, List.sum_replicate, nsmul_eq_mul]
  · unfold GaussianLikelihoodUniformXErrors.log_likelihood
      GaussianLikelihoodUniformXErrors.log_likelihood_y
    rw [hσ]
    rfl

/-- Witness for C9 at a concrete three-point evaluator over `ℚ`
(`bin_size = 2`, so the x-term is `-(3·ln 2)` under the interpretation). -/
theorem C9_witness :
    let ev := GaussianLikelihoodUniformXErrors.mk' (F := ℚ) [0, 4, 9] [1, 2, 3]
      (some 1) 2 (fun _ _ _ => [0, 0, 0]) [] []
    (0 : ℚ) < 2 ∧ ev.base.sigma = some 1 ∧
      ev.log_likelihood_x ratOps = -(((3 : ℕ) : ℚ) * ratOps.log 2) ∧
      ev.log_likelihood ratOps
        = some (ev.log_likelihood_x ratOps + log_l ratOps ev.base.residual 1) := by
  refine ⟨by decide, by decide, ?_, ?_⟩
  · exact (C9_uniform_x_errors ratOps [0, 4, 9] [1, 2, 3] (some 1) 2
      (fun _ _ _ => [0, 0, 0]) [] [] 1 (by decide) (by decide)).1
  · exact (C9_uniform_x_errors ratOps [0, 4, 9] [1, 2, 3] (some 1) 2
      (fun _ _ _ => [0, 0, 0]) [] [] 1 (by decide) (by decide)).2

/-- Claim C2 counterexample: `PoissonLikelihood.noise_log_likelihood` and
`GRBGaussianLikelihood.noise_log_likelihood` have no cache guard and
recompute from the live parameter dict on every call — two calls on the same
evaluator around a sampler mutation of the parameters return different
values (`-2` then `-3` for Poisson; `-7/2` then `-97/8` for GRB), refuting
"every later call returns the identical cached value" for every variant. -/
theorem C2_counterexample :
    let ev : PoissonLikelihood ℚ :=
      { time := [0, 1], counts := [0],
        function := ⟨["background_rate", "dt"], false, fun _ _ _ => [1]⟩,
        integrated_rate_function := true,
        kwargs := [("dt", 1)],
        parameters := [("background_rate", some 1)] }
    let grb : GRBGaussianLikelihood ℚ :=
      { x := [0], y := [1], sigma0 := none,
        function := fun _ _ _ => [0], kwargs := [],
        parameters := [("sigma", some 1)], noiseStored := 0 }
    (PoissonLikelihood.noise_log_likelihood ratOps ev = Except.ok (-2) ∧
      PoissonLikelihood.noise_log_likelihood ratOps
          { ev with parameters := [("background_rate", some 2)] } = Except.ok (-3) ∧
      (Except.ok (-2) : Except String ℚ) ≠ Except.ok (-3)) ∧
    ((GRBGaussianLikelihood.noise_log_likelihood ratOps grb).1 = some (-7 / 2) ∧
      (GRBGaussianLikelihood.noise_log_likelihood ratOps
          { grb with parameters := [("sigma", some 2)] }).1 = some (-97 / 8) ∧
      (some (-7 / 2) : Option ℚ) ≠ some (-97 / 8)) := by
  refine ⟨⟨?_, ?_, ?_⟩, ?_, ?_, ?_⟩
  · show Except.ok (poisson_log_l ratOps [0] [(1 : ℚ) * 1]) = Except.ok (-2)
    unfold poisson_log_l
    norm_num [ratOps]
  · show Except.ok (poisson_log_l ratOps [0] [(2 : ℚ) * 1]) = Except.ok (-3)
    unfold poisson_log_l
    norm_num [ratOps]
  · intro h
    exact absurd (by injection h) (by norm_num : ¬((-2 : ℚ) = -3))
  · show some (log_l ratOps ([(1 : ℚ)].map (fun yi => yi - 0)) 1) = some (-7 / 2)
    unfold log_l
    norm_num [ratOps]
  · show some (log_l ratOps ([(1 : ℚ)].map (fun yi => yi - 0)) 2) = some (-97 / 8)
    unfold log_l
    norm_num [ratOps]
  · intro h
    exact absurd (Option.some.inj h) (by norm_num)

/-- Claim C2 as amended: only `GaussianLikelihood` and its subclasses guard
the noise log-likelihood with `if self._noise_log_likelihood is None`; for
them the first call computes and stores `_log_l(res=y, sigma=sigma)` and
every later call — under any sampler mutation of the parameter dict —
returns the stored value unchanged without recomputation.
(`GRBGaussianLikelihood` and `PoissonLikelihood` recompute on every call.) -/
theorem C2_amended_gaussian_caches {F : Type} [Field F] (M : NumOps F)
    (ev : GaussianLikelihood F) (σ : F)
    (h0 : ev.noiseCache = none) (hσ : ev.sigma = some σ) :
    (GaussianLikelihood.noise_log_likelihood M ev).1 = some (log_l M ev.y σ) ∧
    ((GaussianLikelihood.noise_log_likelihood M ev).2).noiseCache
        = some (log_l M ev.y σ) ∧
    ∀ p : PyDict (PyVal F),
      GaussianLikelihood.noise_log_likelihood M
          { (GaussianLikelihood.noise_log_likelihood M ev).2 with parameters := p }
        = (some (log_l M ev.y σ),
           { (GaussianLikelihood.noise_log_likelihood M ev).2 with parameters := p }) := by
  have hstep : GaussianLikelihood.noise_log_likelihood M ev =
      (some (log_l M ev.y σ), { ev with noiseCache := some (log_l M ev.y σ) }) := by
    unfold GaussianLikelihood.noise_log_likelihood
    rw [h0, hσ]
  refine ⟨by rw [hstep], by rw [hstep], fun p => ?_⟩
  rw [hstep]
  rfl

/-- The fixture for claim C2's witness: a cached-variant evaluator before its
first `noise_log_likelihood` call. -/
def evC2 : GaussianLikelihood ℚ :=
  { x := [0], y := [4], sigmaFixed := some 1,
    function := fun _ _ _ => [0], kwargs := [], parameters := [],
    noiseCache := none }

/-- Witness for the amended C2: on the concrete evaluator the second call is
made after the sampler has overwritten the whole parameter dict, and still
returns the value cached by the first call. -/
theorem C2_witness :
    evC2.noiseCache = none ∧ evC2.sigma = some 1 ∧
      (GaussianLikelihood.noise_log_likelihood ratOps evC2).1
          = some (log_l ratOps evC2.y 1) ∧
      GaussianLikelihood.noise_log_likelihood ratOps
          { (GaussianLikelihood.noise_log_likelihood ratOps evC2).2 with
              parameters := [("sigma", some 9)] }
        = (some (log_l ratOps evC2.y 1),
           { (GaussianLikelihood.noise_log_likelihood ratOps evC2).2 with
               parameters := [("sigma", some 9)] }) := by
  refine ⟨rfl, rfl, ?_, ?_⟩
  · exact (C2_amended_gaussian_caches ratOps evC2 1 rfl rfl).1
  · exact (C2_amended_gaussian_caches ratOps evC2 1 rfl rfl).2.2 [("sigma", some 9)]

/-- The fixture for claim C3: an evaluator whose physical model raises
(`Except.error`) on every parameter draw. -/
def evC3 : GaussianLikelihoodE ℚ :=
  { x := [0], y := [1], sigmaFixed := some 1,
    function := fun _ _ _ => Except.error "ValueError", kwargs := [],
    parameters := [] }

/-- Claim C3 counterexample: `likelihoods.py` contains no exception handler,
so when the model raises, `log_likelihood()` does not return negative
infinity — the exception escapes the likelihood call unchanged. -/
theorem C3_counterexample :
    GaussianLikelihoodE.log_likelihood ratOps evC3 = Except.error "ValueError" :=
  rfl

/-- Claim C3 as amended: an exception raised by the physical model during
`residual` propagates out of `log_likelihood()` unchanged (there is no
`try`/`except` and no conversion to `-inf` anywhere in the evaluator). -/
theorem C3_amended_model_exception_propagates {F : Type} [Field F] (M : NumOps F)
    (ev : GaussianLikelihoodE F) (e : String)
    (herr : ev.function ev.x ev.parameters ev.kwargs = Except.error e) :
    ev.log_likelihood M = Except.error e := by
  unfold GaussianLikelihoodE.log_likelihood GaussianLikelihoodE.residual
  rw [herr]
  rfl

/-- Witness for the amended C3 at the concrete failing evaluator. -/
theorem C3_witness :
    evC3.function evC3.x evC3.parameters evC3.kwargs = Except.error "ValueError" ∧
      GaussianLikelihoodE.log_likelihood ratOps evC3 = Except.error "ValueError" :=
  ⟨rfl, C3_amended_model_exception_propagates ratOps evC3 "ValueError" rfl⟩

/-- Claim C4 counterexample: under IEEE semantics (concrete oracles for the
finite `log`/`gammaln`/`pi` values, which the result does not depend on), a
zero Poisson rate at a zero-count point makes `_poisson_log_likelihood`
return `nan` (`0 * log 0 = 0 * (-inf) = nan`), and a zero sigma with a
nonzero residual makes `_log_l` return `nan`
(`-inf - log(0)/2 = -inf + inf = nan`) — the kernels return NaN, not the
claimed negative infinity. -/
theorem C4_counterexample :
    poisson_log_lF (fun _ => 0) (fun _ => 0) [0] [PFloat.val 0] = PFloat.nan ∧
      log_lF (fun _ => 0) 3 [PFloat.val 1] (PFloat.val 0) = PFloat.nan := by
  refine ⟨rfl, ?_⟩
  have h0 : (2 * 3) * 0 = (0 : ℚ) := mul_zero _
  simp only [log_lF, List.map, PFloat.pSum, List.foldl, PFloat.ppow2, PFloat.pmul,
    PFloat.pdiv, PFloat.pneg, PFloat.plog, PFloat.psub, PFloat.padd, h0]
  norm_num

/-- Claim C4 as amended: `_log_l` and `_poisson_log_likelihood` apply no
sanitization at all (no `np.nan_to_num` appears in them). Under IEEE
semantics, for every interpretation of the finite transcendental values: a
zero rate at a zero-count point yields `nan` (never `-inf`); a zero rate at a
positive-count point yields a genuine `-inf`; and a zero sigma with nonzero
residual yields `nan` in the Gaussian kernel. Only `log_likelihood_x` and
`log_likelihood_upper_limit` sanitize via `np.nan_to_num`. -/
theorem C4_amended_no_sanitization_in_kernels (lg gl : ℚ → ℚ) (piq : ℚ) :
    poisson_log_lF lg gl [0] [PFloat.val 0] = PFloat.nan ∧
      poisson_log_lF lg gl [1] [PFloat.val 0] = PFloat.ninf ∧
      log_lF lg piq [PFloat.val 1] (PFloat.val 0) = PFloat.nan := by
  refine ⟨rfl, rfl, ?_⟩
  have h0 : (2 * piq) * 0 = (0 : ℚ) := mul_zero _
  simp only [log_lF, List.map, PFloat.pSum, List.foldl, PFloat.ppow2, PFloat.pmul,
    PFloat.pdiv, PFloat.pneg, PFloat.plog, PFloat.psub, PFloat.padd, h0]
  norm_num

/-- Witness for the amended C4, instantiated at concrete oracle
interpretations of `log`, `gammaln` and `pi`. -/
theorem C4_witness :
    poisson_log_lF (fun q => q) (fun q => q) [0] [PFloat.val 0] = PFloat.nan ∧
      poisson_log_lF (fun q => q) (fun q => q) [1] [PFloat.val 0] = PFloat.ninf ∧
      log_lF (fun q => q) 3 [PFloat.val 1] (PFloat.val 0) = PFloat.nan :=
  C4_amended_no_sanitization_in_kernels (fun q => q) (fun q => q) 3

/-- `np.sum` of an array of finite values is the finite exact sum. -/
theorem pSum_map_val (g : ℚ → ℚ) (l : List ℚ) :
    PFloat.pSum (l.map (fun q => PFloat.val (g q))) = PFloat.val ((l.map g).sum) := by
  have h : ∀ (l : List ℚ) (a : ℚ),
      (l.map (fun q => PFloat.val (g q))).foldl PFloat.padd (PFloat.val a)
        = PFloat.val (a + (l.map g).sum) := by
    intro l
    induction l with
    | nil => intro a; simp
    | cons x xs ih =>
      intro a
      simp only [List.map_cons, List.foldl_cons, PFloat.padd, List.sum_cons, ih,
        add_assoc]
  simpa [PFloat.pSum] using h l 0

/-- Evaluation of the masked-assignment line
`log_l[flux >= self.upperlimit_flux] = np.nan_to_num(-np.inf)` over an array
of finite fluxes and a positive finite threshold: an at-or-above point holds
the finite `np.finfo(float64).min`, a below point holds `-log(threshold)`. -/
theorem mask_eval (lg : ℚ → ℚ) (t : ℚ) (ht : 0 < t) :
    ∀ fq : List ℚ,
      List.zipWith
        (fun f l => if PFloat.pge f (PFloat.val t) then PFloat.nanToNum PFloat.ninf else l)
        (fq.map PFloat.val)
        ((fq.map PFloat.val).map
          (fun _ => PFloat.pmul (PFloat.pneg (PFloat.val 1)) (PFloat.plog lg (PFloat.val t)))) =
      fq.map (fun f => PFloat.val (if t ≤ f then PFloat.minFloat else -(lg t)))
  | [] => rfl
  | f :: fs => by
    simp only [List.map_cons, List.zipWith_cons_cons, mask_eval lg t ht fs]
    congr 1
    by_cases hf : t ≤ f
    · simp [PFloat.pge, PFloat.nanToNum, hf, ge_iff_le]
    · simp [PFloat.pge, PFloat.plog, PFloat.pneg, PFloat.pmul, hf, ge_iff_le,
        if_pos ht, neg_one_mul]

/-- The fixture for claim C5: a two-point non-detection evaluator whose model
predicts one flux below (`1`) and one at-or-above (`3`) the upper-limit
threshold (`2`). -/
def evC5 : NonDetectionsF :=
  { x := [PFloat.val 0, PFloat.val 1], y := [PFloat.val 1, PFloat.val 1],
    sigma_i := PFloat.val 1,
    function := fun _ _ _ => [PFloat.val 1, PFloat.val 3],
    kwargs := [], upperlimit_kwargs := [("flux", PFloat.val 2)],
    parameters := [("sigma", some (PFloat.val 1))] }

/-- Claim C5 counterexample: on the synthetic two-point case (one below, one
at-or-above threshold) the upper-limit term is the FINITE value
`np.finfo(float64).min − ln(threshold)` — not `-inf` — because the code
assigns `np.nan_to_num(-np.inf)` (a finite number) to at-or-above points and
`np.nan_to_num`-sanitizes the sum; the total log-likelihood is finite too. -/
theorem C5_counterexample :
    NonDetectionsF.log_likelihood_upper_limit (fun _ => 7 / 10) evC5 =
      some (PFloat.val (-(7 / 10) + (PFloat.minFloat + 0))) ∧
    PFloat.val (-(7 / 10) + (PFloat.minFloat + 0)) ≠ PFloat.ninf ∧
    (NonDetectionsF.log_likelihood (fun _ => 7 / 10) (fun _ => 1) 3 evC5).map
        PFloat.isFinite = some true := by
  have hUL : NonDetectionsF.log_likelihood_upper_limit (fun _ => 7 / 10) evC5 =
      some (PFloat.val (-(7 / 10) + (PFloat.minFloat + 0))) := by
    unfold NonDetectionsF.log_likelihood_upper_limit
    have hthr : evC5.upperlimit_flux = some (PFloat.val 2) := rfl
    rw [hthr]
    simp only [Option.map_some']
    congr 1
    show PFloat.nanToNum (PFloat.pSum _) = _
    rw [show evC5.function evC5.x evC5.parameters evC5.upperlimit_kwargs
        = [(1 : ℚ), 3].map PFloat.val from rfl]
    rw [mask_eval (fun _ => 7 / 10) 2 (by norm_num) [1, 3]]
    rw [pSum_map_val (fun f => if 2 ≤ f then PFloat.minFloat else -(7 / 10)) [1, 3]]
    norm_num [PFloat.nanToNum]
  refine ⟨hUL, by simp, ?_⟩
  have hy : NonDetectionsF.log_likelihood_y (fun _ => 7 / 10) (fun _ => 1) 3 evC5
      = some (PFloat.val (-(27 / 10))) := by
    unfold NonDetectionsF.log_likelihood_y NonDetectionsF.full_sigma
      NonDetectionsF.sigma
    norm_num [evC5, PyDict.get?, List.find?, log_lF, PFloat.pSum, PFloat.ppow2,
      PFloat.pmul, PFloat.pdiv, PFloat.pneg, PFloat.plog, PFloat.psub,
      PFloat.padd, PFloat.psqrt]
  unfold NonDetectionsF.log_likelihood
  rw [hy, hUL]
  rfl

/-- Claim C5 as amended: `log_likelihood()` of the non-detection evaluator is
`log_likelihood_y() + log_likelihood_upper_limit()`, where the upper-limit
term re-evaluates the model at `self.x` with the upper-limit kwargs and, for
finite predicted fluxes and a positive finite threshold, each below-threshold
point contributes `−ln(threshold_flux)` while each at-or-above point
contributes the finite `np.nan_to_num(-inf) = np.finfo(float64).min`; the
(nan_to_num-sanitized) upper-limit term is therefore always finite, never
`-inf`. -/
theorem C5_amended_upper_limit (lg sq : ℚ → ℚ) (piq : ℚ) (ev : NonDetectionsF)
    (t : ℚ) (fq : List ℚ) (ly : PFloat)
    (hthr : ev.upperlimit_flux = some (PFloat.val t)) (ht : 0 < t)
    (hflux : ev.function ev.x ev.parameters ev.upperlimit_kwargs = fq.map PFloat.val)
    (hy : ev.log_likelihood_y lg sq piq = some ly) :
    ev.log_likelihood_upper_limit lg =
      some (PFloat.val ((fq.map (fun f => if t ≤ f then PFloat.minFloat else -(lg t))).sum)) ∧
    ev.log_likelihood lg sq piq =
      some (PFloat.padd ly
        (PFloat.val ((fq.map (fun f => if t ≤ f then PFloat.minFloat else -(lg t))).sum))) := by
  have hUL : ev.log_likelihood_upper_limit lg =
      some (PFloat.val ((fq.map (fun f => if t ≤ f then PFloat.minFloat else -(lg t))).sum)) := by
    unfold NonDetectionsF.log_likelihood_upper_limit
    rw [hthr]
    simp only [Option.map_some']
    congr 1
    show PFloat.nanToNum (PFloat.pSum _) = _
    rw [hflux, mask_eval lg t ht fq,
      pSum_map_val (fun f => if t ≤ f then PFloat.minFloat else -(lg t)) fq]
    rfl
  refine ⟨hUL, ?_⟩
  unfold NonDetectionsF.log_likelihood
  rw [hy, hUL]

/-- Witness for the amended C5 at the concrete two-point fixture. -/
theorem C5_witness :
    evC5.upperlimit_flux = some (PFloat.val 2) ∧ (0 : ℚ) < 2 ∧
    evC5.function evC5.x evC5.parameters evC5.upperlimit_kwargs
        = [(1 : ℚ), 3].map PFloat.val ∧
    NonDetectionsF.log_likelihood_y (fun _ => 7 / 10) (fun _ => 1) 3 evC5
        = some (PFloat.val (-(27 / 10))) ∧
    NonDetectionsF.log_likelihood_upper_limit (fun _ => 7 / 10) evC5 =
      some (PFloat.val (([(1 : ℚ), 3].map
        (fun f => if 2 ≤ f then PFloat.minFloat else -(7 / 10))).sum)) ∧
    NonDetectionsF.log_likelihood (fun _ => 7 / 10) (fun _ => 1) 3 evC5 =
      some (PFloat.padd (PFloat.val (-(27 / 10)))
        (PFloat.val (([(1 : ℚ), 3].map
          (fun f => if 2 ≤ f then PFloat.minFloat else -(7 / 10))).sum))) := by
  have hy : NonDetectionsF.log_likelihood_y (fun _ => 7 / 10) (fun _ => 1) 3 evC5
      = some (PFloat.val (-(27 / 10))) := by
    unfold NonDetectionsF.log_likelihood_y NonDetectionsF.full_sigma
      NonDetectionsF.sigma
    norm_num [evC5, PyDict.get?, List.find?, log_lF, PFloat.pSum, PFloat.ppow2,
      PFloat.pmul, PFloat.pdiv, PFloat.pneg, PFloat.plog, PFloat.psub,
      PFloat.padd, PFloat.psqrt]
  refine ⟨rfl, by norm_num, rfl, hy, ?_, ?_⟩
  · exact (C5_amended_upper_limit (fun _ => 7 / 10) (fun _ => 1) 3 evC5 2 [1, 3]
      (PFloat.val (-(27 / 10))) rfl (by norm_num) rfl hy).1
  · exact (C5_amended_upper_limit (fun _ => 7 / 10) (fun _ => 1) 3 evC5 2 [1, 3]
      (PFloat.val (-(27 / 10))) rfl (by norm_num) rfl hy).2

/-- Claim C7 counterexample: an evaluator whose sigma is an inferred free
parameter (`sigma=None` at construction). The noise-only log-likelihood
computed at the first `noise_log_likelihood()` call reads the LIVE `'sigma'`
parameter: with the genuine real interpretation, first-call parameter states
`sigma = 1` and `sigma = 2` cache different values
(`-ln(2π)/2` versus `-ln(8π)/2`). -/
theorem C7_counterexample :
    (GaussianLikelihood.noise_log_likelihood realOps
        { x := [0], y := [0], sigmaFixed := none, function := fun _ _ _ => [0],
          kwargs := [], parameters := [("sigma", some 1)], noiseCache := none }).1 ≠
      (GaussianLikelihood.noise_log_likelihood realOps
        { x := [0], y := [0], sigmaFixed := none, function := fun _ _ _ => [0],
          kwargs := [], parameters := [("sigma", some 2)], noiseCache := none }).1 := by
  intro h
  have h1 : some (log_l realOps [(0 : ℝ)] 1) = some (log_l realOps [(0 : ℝ)] 2) := h
  have h2 : log_l realOps [(0 : ℝ)] 1 = log_l realOps [(0 : ℝ)] 2 := Option.some.inj h1
  have e1 : log_l realOps [(0 : ℝ)] 1 = -(Real.log (2 * Real.pi) / 2) := by
    simp [log_l, realOps]
  have e2 : log_l realOps [(0 : ℝ)] 2 = -(Real.log (2 * Real.pi * 2 ^ 2) / 2) := by
    simp [log_l, realOps]
  have hlt : Real.log (2 * Real.pi) < Real.log (2 * Real.pi * 2 ^ 2) := by
    refine Real.log_lt_log (by positivity) ?_
    nlinarith [Real.pi_pos]
  rw [e1, e2] at h2
  have h4 : Real.log (2 * Real.pi) / 2 = Real.log (2 * Real.pi * 2 ^ 2) / 2 :=
    neg_injective h2
  have h5 : Real.log (2 * Real.pi) = Real.log (2 * Real.pi * 2 ^ 2) := by
    field_simp at h4
    linarith
  exact absurd h5 (ne_of_lt hlt)

/-- Claim C7 as amended: the computed-and-cached noise log-likelihood is
independent of the sampled parameter vector exactly when sigma is fixed at
construction and the parameter dict carries no `'sigma'` entry: then any two
first-call parameter states produce the same cached value
`_log_l(res=y, sigma=fixed_sigma)`. When sigma is an inferred free parameter
the cached value depends on the `'sigma'` entry at first call. -/
theorem C7_amended_noise_independent_when_fixed {F : Type} [Field F]
    (M : NumOps F) (ev1 ev2 : GaussianLikelihood F) (s : F)
    (hy : ev1.y = ev2.y)
    (hfix1 : ev1.sigmaFixed = some s) (hfix2 : ev2.sigmaFixed = some s)
    (h01 : ev1.noiseCache = none) (h02 : ev2.noiseCache = none)
    (hp1 : PyDict.get? ev1.parameters "sigma" = none)
    (hp2 : PyDict.get? ev2.parameters "sigma" = none) :
    (GaussianLikelihood.noise_log_likelihood M ev1).1 = some (log_l M ev1.y s) ∧
    (GaussianLikelihood.noise_log_likelihood M ev2).1 = some (log_l M ev1.y s) := by
  have key : ∀ ev : GaussianLikelihood F, ev.sigmaFixed = some s →
      ev.noiseCache = none → PyDict.get? ev.parameters "sigma" = none →
      (GaussianLikelihood.noise_log_likelihood M ev).1 = some (log_l M ev.y s) := by
    intro ev hfix h0 hp
    have hsig : ev.sigma = some s := by
      unfold GaussianLikelihood.sigma
      rw [hp, hfix]
    unfold GaussianLikelihood.noise_log_likelihood
    rw [h0, hsig]
  refine ⟨key ev1 hfix1 h01 hp1, ?_⟩
  rw [hy]
  exact key ev2 hfix2 h02 hp2

/-- The fixture for claim C7's witness: a fixed-sigma evaluator in its first
first-call parameter state. -/
def evC7a : GaussianLikelihood ℚ :=
  { x := [0], y := [1], sigmaFixed := some 2,
    function := fun _ _ _ => [0], kwargs := [],
    parameters := [("amp", some 1)], noiseCache := none }

/-- The same evaluator in a different first-call parameter state. -/
def evC7b : GaussianLikelihood ℚ :=
  { evC7a with parameters := [("amp", some 9)] }

/-- Witness for the amended C7: on the concrete fixed-sigma evaluator, two
different first-call parameter states yield the same computed noise value. -/
theorem C7_witness :
    (evC7a.y = evC7b.y ∧ evC7a.sigmaFixed = some 2 ∧ evC7b.sigmaFixed = some 2 ∧
      evC7a.noiseCache = none ∧ evC7b.noiseCache = none ∧
      PyDict.get? evC7a.parameters "sigma" = none ∧
      PyDict.get? evC7b.parameters "sigma" = none) ∧
    (GaussianLikelihood.noise_log_likelihood ratOps evC7a).1
        = some (log_l ratOps evC7a.y 2) ∧
    (GaussianLikelihood.noise_log_likelihood ratOps evC7b).1
        = some (log_l ratOps evC7a.y 2) := by
  refine ⟨⟨rfl, rfl, rfl, rfl, rfl, rfl, rfl⟩, ?_⟩
  exact C7_amended_noise_independent_when_fixed ratOps evC7a evC7b 2
    rfl rfl rfl rfl rfl rfl rfl

/-- `getD` through a `map`, inside the array bounds. -/
theorem getD_map_of_lt {α β : Type} (g : α → β) (d : α) (d' : β) :
    ∀ (l : List α) (i : ℕ), i < l.length → (l.map g).getD i d' = g (l.getD i d)
  | [], i, h => absurd h (by simp)
  | _ :: _, 0, _ => rfl
  | _ :: xs, i + 1, h => by
    simpa using getD_map_of_lt g d d' xs i (by simpa using h)

/-- Claim C8: `PoissonLikelihood.log_likelihood()` equals
`Σ_{i<N} [ −rate_i + counts_i·ln(rate_i) − lnΓ(counts_i+1) ]` with
`rate_i = model(time)_i + background_rate`, multiplied by `dt` exactly when
`integrated_rate_function` is false; and `noise_log_likelihood()` uses the
signal-free scalar rate `background_rate · dt` broadcast over the counts. -/
theorem C8_poisson_log_likelihood {F : Type} [Field F] (M : NumOps F)
    (ev : PoissonLikelihood F) (bg d : F) (fx : List F) (N : ℕ)
    (hbg : PyDict.get? ev.parameters "background_rate" = some (some bg))
    (hdt : ev.dt = some d)
    (hcall : callModel ev.function ev.time ev.parameters ev.kwargs = Except.ok fx)
    (hlen : fx.length = N) (hc : ev.counts.length = N) :
    ev.log_likelihood M = Except.ok (∑ i ∈ Finset.range N,
      (-((fx.getD i 0 + bg) * (if ev.integrated_rate_function then 1 else d))
        + ((ev.counts.getD i 0 : ℕ) : F)
            * M.log ((fx.getD i 0 + bg) * (if ev.integrated_rate_function then 1 else d))
        - M.lgamma (((ev.counts.getD i 0 : ℕ) : F) + 1))) ∧
    ev.noise_log_likelihood M = Except.ok (∑ i ∈ Finset.range N,
      (-(bg * d) + ((ev.counts.getD i 0 : ℕ) : F) * M.log (bg * d)
        - M.lgamma (((ev.counts.getD i 0 : ℕ) : F) + 1))) := by
  constructor
  · unfold PoissonLikelihood.log_likelihood
    rw [hcall]
    show (match PyDict.get? ev.parameters "background_rate" with
          | some (some bg) => _
          | some none => _
          | none => _) = _
    rw [hbg]
    cases hflag : ev.integrated_rate_function with
    | true =>
      show Except.ok (poisson_log_l M ev.counts (fx.map (fun v => v + bg))) = _
      congr 1
      unfold poisson_log_l
      rw [zipWith_sum_range _ 0 0 ev.counts (fx.map (fun v => v + bg))
        (by simpa [hlen] using hc.symm), hc]
      refine Finset.sum_congr rfl (fun i hi => ?_)
      have hilt : i < fx.length := by
        rw [hlen]; exact Finset.mem_range.mp hi
      rw [getD_map_of_lt (fun v => v + bg) 0 0 fx i hilt]
      simp
    | false =>
      rw [hdt]
      show Except.ok
          (poisson_log_l M ev.counts ((fx.map (fun v => v + bg)).map (fun v => v * d))) = _
      congr 1
      unfold poisson_log_l
      rw [List.map_map,
        zipWith_sum_range _ 0 0 ev.counts (fx.map ((fun v => v * d) ∘ (fun v => v + bg)))
          (by simpa [hlen] using hc.symm), hc]
      refine Finset.sum_congr rfl (fun i hi => ?_)
      have hilt : i < fx.length := by
        rw [hlen]; exact Finset.mem_range.mp hi
      rw [getD_map_of_lt ((fun v => v * d) ∘ (fun v => v + bg)) 0 0 fx i hilt]
      simp
  · unfold PoissonLikelihood.noise_log_likelihood
    rw [hbg, hdt]
    show Except.ok (poisson_log_l M ev.counts (ev.counts.map (fun _ => bg * d))) = _
    congr 1
    unfold poisson_log_l
    rw [zipWith_sum_range _ 0 0 ev.counts (ev.counts.map (fun _ => bg * d))
      (by simp), hc]
    refine Finset.sum_congr rfl (fun i hi => ?_)
    have hilt : i < ev.counts.length := by
      rw [hc]; exact Finset.mem_range.mp hi
    rw [getD_map_of_lt (fun _ => bg * d) 0 0 ev.counts i hilt]

/-- The model fixture for claim C8's witness: a three-bin model returning the
integrated rate `[1, 1, 1]`. -/
def fC8 : PyModel ℝ :=
  ⟨["background_rate", "dt"], false, fun _ _ _ => [1, 1, 1]⟩

/-- The evaluator fixture for claim C8's witness: `background_rate = 0`,
`dt = 1`, `counts = [0, 1, 2]`. -/
noncomputable def evC8 : PoissonLikelihood ℝ :=
  { time := [0, 1, 2], counts := [0, 1, 2], function := fC8,
    integrated_rate_function := true, kwargs := [("dt", 1)],
    parameters := [("background_rate", some 0)] }

/-- Witness for C8, realizing the spec's numeric check with the genuine real
interpretation: `logL = Σ(−1 + counts·ln 1 − lnΓ(counts+1)) = −3 − ln 2`. -/
theorem C8_witness :
    (PyDict.get? evC8.parameters "background_rate" = some (some 0) ∧
      evC8.dt = some 1 ∧
      callModel evC8.function evC8.time evC8.parameters evC8.kwargs
        = Except.ok [1, 1, 1] ∧
      ([(1 : ℝ), 1, 1].length = 3) ∧ evC8.counts.length = 3) ∧
    evC8.log_likelihood realOps = Except.ok (-3 - Real.log 2) := by
  refine ⟨⟨rfl, rfl, rfl, rfl, rfl⟩, ?_⟩
  have h := (C8_poisson_log_likelihood realOps evC8 0 1 [1, 1, 1] 3
    rfl rfl rfl rfl rfl).1
  rw [h]
  congr 1
  have hΓ3 : Real.Gamma 3 = 2 := by
    rw [show (3 : ℝ) = ((2 : ℕ) : ℝ) + 1 by norm_num, Real.Gamma_nat_eq_factorial]
    norm_num
  rw [Finset.sum_range_succ, Finset.sum_range_succ, Finset.sum_range_one]
  norm_num [evC8, fC8, realOps, List.getD, Real.Gamma_one, Real.Gamma_two, hΓ3]
  ring_nf

/-- Lookup after the in-place-replacement branch of `d[k] = v`. -/
theorem get?_map_replace {α : Type} (k : String) (v : α) :
    ∀ d : PyDict α, (d.find? (fun p => p.1 = k)).isSome →
      PyDict.get? (d.map (fun p => if p.1 = k then (k, v) else p)) k = some v
  | [], h => by simp [List.find?] at h
  | (a, b) :: t, h => by
    by_cases hak : a = k
    · simp [PyDict.get?, List.find?_cons, hak]
    · have ht : (t.find? (fun p => p.1 = k)).isSome := by
        have := h
        simpa [List.find?_cons, hak] using this
      have ih := get?_map_replace k v t ht
      simpa [PyDict.get?, List.find?_cons, hak] using ih

/-- Lookup after the append branch of `d[k] = v` (key previously absent). -/
theorem get?_append_new {α : Type} (k : String) (v : α) :
    ∀ d : PyDict α, d.find? (fun p => p.1 = k) = none →
      PyDict.get? (d ++ [(k, v)]) k = some v
  | [], _ => by simp [PyDict.get?, List.find?]
  | (a, b) :: t, h => by
    have hak : ¬(a = k) := by
      intro hh
      simp [List.find?_cons, hh] at h
    have ht : t.find? (fun p => p.1 = k) = none := by
      simpa [List.find?_cons, hak] using h
    have ih := get?_append_new k v t ht
    simpa [PyDict.get?, List.find?_cons, hak] using ih

/-- Python `d[k] = v` followed by `d[k]` returns `v`. -/
theorem get?_setKey {α : Type} (d : PyDict α) (k : String) (v : α) :
    PyDict.get? (PyDict.setKey d k v) k = some v := by
  unfold PyDict.setKey
  by_cases h : (d.find? (fun p => p.1 = k)).isSome
  · rw [if_pos h]
    exact get?_map_replace k v d h
  · rw [if_neg h]
    exact get?_append_new k v d (by
      cases hf : d.find? (fun p => p.1 = k) with
      | none => rfl
      | some x => exact absurd (by rw [hf]; rfl) h)

/-- A successful lookup means the key is among the dict's keys. -/
theorem mem_keys_of_get? {α : Type} (k : String) (v : α) :
    ∀ d : PyDict α, PyDict.get? d k = some v → k ∈ PyDict.keys d
  | [], h => by simp [PyDict.get?, List.find?] at h
  | (a, b) :: t, h => by
    by_cases hak : a = k
    · simp [PyDict.keys, hak]
    · have ht : PyDict.get? t k = some v := by
        simpa [PyDict.get?, List.find?_cons, hak] using h
      simpa [PyDict.keys] using Or.inr (by
        simpa [PyDict.keys] using mem_keys_of_get? k v t ht)

/-- Claim C10: `PoissonLikelihood.__init__` stores `dt` into the kwargs dict
that `log_likelihood()` splats into every model call (deriving
`dt = time[1] − time[0]` when the `dt` argument is `None`); consequently a
model that neither declares a `dt` keyword nor `**kwargs` raises `TypeError`
on every `log_likelihood()` call. -/
theorem C10_poisson_dt_in_kwargs {F : Type} [Field F] (M : NumOps F)
    (t0 t1 : F) (ts : List F) (counts : List ℕ) (f : PyModel F) (flag : Bool)
    (kw0 : Option (PyDict F)) (ev : PoissonLikelihood F)
    (hmk : PoissonLikelihood.mk' (t0 :: t1 :: ts) counts f flag none kw0 = some ev) :
    ev.dt = some (t1 - t0) ∧
    "dt" ∈ PyDict.keys ev.kwargs ∧
    (f.hasVarKw = false → f.accepts.contains "dt" = false →
      ev.log_likelihood M
        = Except.error "TypeError: got an unexpected keyword argument") := by
  have hev : ev =
      { time := t0 :: t1 :: ts
        counts := counts
        function := f
        integrated_rate_function := flag
        kwargs := PyDict.setKey (kw0.getD []) "dt" (t1 - t0)
        parameters := f.accepts.map (fun k => (k, none)) } := by
    have := hmk
    unfold PoissonLikelihood.mk' PoissonLikelihood.deriveDt at this
    exact (Option.some.inj this).symm
  subst hev
  have hdt : PyDict.get? (PyDict.setKey (kw0.getD []) "dt" (t1 - t0)) "dt"
      = some (t1 - t0) := get?_setKey _ _ _
  refine ⟨hdt, mem_keys_of_get? "dt" (t1 - t0) _ hdt, fun hvk hacc => ?_⟩
  have hkeys : "dt" ∈ PyDict.keys ((f.accepts.map (fun k => (k, (none : PyVal F)))))
        ++ PyDict.keys (PyDict.setKey (kw0.getD []) "dt" (t1 - t0)) :=
    List.mem_append_right _ (mem_keys_of_get? "dt" (t1 - t0) _ hdt)
  have hcond : ¬((PyDict.keys (f.accepts.map (fun k => (k, (none : PyVal F))))
      ++ PyDict.keys (PyDict.setKey (kw0.getD []) "dt" (t1 - t0))).all
        (fun k => f.hasVarKw || f.accepts.contains k) = true) := by
    intro hall
    have := List.all_eq_true.mp hall "dt" hkeys
    rw [hvk, hacc] at this
    simp at this
  unfold PoissonLikelihood.log_likelihood callModel
  rw [if_neg hcond]
  rfl

/-- The model fixture for claim C10's witness: a model that declares only
`background_rate` and has no `**kwargs`. -/
def fC10 : PyModel ℚ :=
  ⟨["background_rate"], false, fun _ _ _ => [1]⟩

/-- The evaluator fixture for claim C10's witness, as built by the
constructor from `time = [0, 5]` and `dt=None`. -/
def evC10 : PoissonLikelihood ℚ :=
  { time := [0, 5]
    counts := [1]
    function := fC10
    integrated_rate_function := true
    kwargs := PyDict.setKey [] "dt" (5 - 0)
    parameters := fC10.accepts.map (fun k => (k, none)) }

/-- Witness for C10 at a concrete construction over `ℚ` with `dt=None`:
`dt` is derived as `time[1] − time[0] = 5` and stored in the kwargs, and
`log_likelihood` raises `TypeError` because the model does not accept `dt`. -/
theorem C10_witness :
    PoissonLikelihood.mk' [0, 5] [1] fC10 true none none = some evC10 ∧
      evC10.dt = some (5 - 0) ∧
      "dt" ∈ PyDict.keys evC10.kwargs ∧
      evC10.log_likelihood ratOps
        = Except.error "TypeError: got an unexpected keyword argument" := by
  have h := C10_poisson_dt_in_kwargs (F := ℚ) ratOps 0 5 [] [1] fC10 true none evC10 rfl
  exact ⟨rfl, h.1, h.2.1, h.2.2 rfl rfl⟩

end Redback
